import Mathlib

/-!
Verification of the `unicon` contribution tracker against its specification.

The Python sources under `src/` are shallowly embedded: strings are
`String`/`List Char`, dictionaries parsed from CSV are association lists,
`datetime` values are either their ISO rendering or (for code reviews)
abstract chronological `Nat` instants, and filesystem effects of the import
routine are recorded as an explicit event list.  Python standard-library
calls (`str.replace`, `str.split`, `str.strip`, the `csv` module with its
default excel dialect, `datetime.fromisoformat` on the fixed-offset shapes
that occur here) are modelled by the executable definitions below, each
documented at its definition site.
-/

namespace Unicon

/-! ### Python string primitives -/

/-- Whitespace stripped by Python `str.strip()` (ASCII portion, which is all
that occurs in this code base). -/
def isPyWhite (c : Char) : Bool :=
  c = ' ' || c = '\t' || c = '\n' || c = '\r' || c = '\x0b' || c = '\x0c'

/-- Model of Python `str.strip()` on a character list. -/
def pyStripList (cs : List Char) : List Char :=
  ((cs.dropWhile isPyWhite).reverse.dropWhile isPyWhite).reverse

/-- Model of Python `str.strip()`. -/
def pyStrip (s : String) : String :=
  String.mk (pyStripList s.data)

/-- Model of Python `str.split(sep)` for a one-character separator:
splits on every occurrence and keeps empty pieces. -/
def splitChar : List Char → Char → List (List Char)
  | [], _ => [[]]
  | c :: rest, sep =>
    match splitChar rest sep with
    | [] => if c = sep then [[], []] else [[c]]
    | f :: fs => if c = sep then [] :: f :: fs else (c :: f) :: fs

/-- Model of Python `str.replace(old, new)` for a one-character `old`
pattern: replace every occurrence. -/
def replaceAllChars : List Char → Char → List Char → List Char
  | [], _, _ => []
  | c :: rest, old, new =>
    if c = old then new ++ replaceAllChars rest old new
    else c :: replaceAllChars rest old new

/-- Model of Python `str.replace(old, new, count)` for a one-character
`old` pattern: replace only the first `count` occurrences. -/
def replaceCountChars : List Char → Char → List Char → Nat → List Char
  | [], _, _, _ => []
  | c :: rest, old, new, k =>
    match k with
    | 0 => c :: rest
    | k + 1 =>
      if c = old then new ++ replaceCountChars rest old new k
      else c :: replaceCountChars rest old new (k + 1)

/-- Fuelled worker for `pyReplaceSub`; the fuel is an upper bound on the
number of characters still to be examined. -/
def replaceSeqAux : Nat → List Char → List Char → List Char → List Char
  | 0, cs, _, _ => cs
  | fuel + 1, cs, old, new =>
    match cs with
    | [] => []
    | c :: rest =>
      if old.isPrefixOf (c :: rest) then
        new ++ replaceSeqAux fuel ((c :: rest).drop old.length) old new
      else
        c :: replaceSeqAux fuel rest old new

/-- Model of Python `str.replace(old, new)` for a non-empty multi-character
`old` pattern (used for the `"+00:00" → "Z"` rewriting of timestamps). -/
def pyReplaceSub (s old new : String) : String :=
  String.mk (replaceSeqAux (s.data.length + 1) s.data old.data new.data)

/-- Model of Python `str.lower()` (ASCII portion). -/
def pyLower (s : String) : String :=
  String.mk (s.data.map Char.toLower)

/-- Model of Python slicing `s[:n]`. -/
def pyTake (s : String) (n : Nat) : String :=
  String.mk (s.data.take n)

/-- The character of a single decimal digit value. -/
def digitChar (n : Nat) : Char := Char.ofNat (48 + n)

/-- The decimal value of a digit character. -/
def digitVal (c : Char) : Nat := c.toNat - 48

/-- Fuelled decimal rendering of a natural number (worker). -/
def ntdAux : Nat → Nat → List Char
  | 0, _ => []
  | fuel + 1, n =>
    if n < 10 then [digitChar n]
    else ntdAux fuel (n / 10) ++ [digitChar (n % 10)]

/-- Decimal rendering of a natural number, as produced by a Python
f-string `f"{n}"`. -/
def natToDecimal (n : Nat) : List Char := ntdAux (n + 1) n

/-- Model of the Python format `f"{n:02d}"` for `n < 100`: zero-pad to two
digits. -/
def pad2 (n : Nat) : List Char :=
  if n < 10 then '0' :: natToDecimal n else natToDecimal n

/-! ### `src/utils/csv_utils.py` -/

/-- Embeds `escape_csv_field` (src/utils/csv_utils.py, lines 6-23): wrap the field
in double quotes and double the embedded quotes when it contains a comma,
a quote or a newline.  The Python `None` input is modelled by the caller
supplying `""`. -/
def escape_csv_field (field : String) : String :=
  if field.data.contains ',' || field.data.contains '"' || field.data.contains '\n' then
    "\"" ++ String.mk (replaceAllChars field.data '"' ['"', '"']) ++ "\""
  else field

/-- Quoting applied by Python's `csv.writer` (excel dialect,
`QUOTE_MINIMAL`): a value is wrapped in quotes, with embedded quotes
doubled, exactly when it contains the delimiter, the quote character or a
character of the line terminator `"\r\n"`. -/
def writerQuoteField (s : String) : String :=
  if s.data.contains ',' || s.data.contains '"' || s.data.contains '\n' || s.data.contains '\r' then
    "\"" ++ String.mk (replaceAllChars s.data '"' ['"', '"']) ++ "\""
  else s

/-- One row emitted by Python's `csv.writer.writerow` (excel dialect):
comma-separated quoted values terminated by `"\r\n"`. -/
def writerRow (vals : List String) : String :=
  String.intercalate "," (vals.map writerQuoteField) ++ "\r\n"

/-- A CSV record as produced by `csv.DictReader`: an association list from
header names to field values (Python uses a dict; the rows arising here
have pairwise distinct headers). -/
abbrev Record : Type := List (String × String)

/-- Model of Python `row.get(key, "")` on a record. -/
def recGet (r : Record) (k : String) : String :=
  match List.lookup k r with
  | some v => v
  | none => ""

/-- Embeds `array_to_csv` (src/utils/csv_utils.py, lines 26-51): header row plus
one `csv.writer` row per record, each field first passed through
`escape_csv_field`; an empty record list yields only the joined headers. -/
def array_to_csv (data : List Record) (headers : List String) : String :=
  if data.isEmpty then String.intercalate "," headers
  else
    writerRow headers ++
      String.join (data.map fun row =>
        writerRow (headers.map fun h => escape_csv_field (recGet row h)))

/-- State machine of Python's `csv.reader` (excel dialect): `inQ` is the
inside-quotes state, `field` the characters of the current field, `row` the
fields of the current row, `acc` the finished rows.  A lone newline yields
the empty row `[]`, as Python's reader does for a blank line. -/
def csvScan : Bool → List Char → List Char → List String → List (List String) →
    List (List String)
  | true, [], field, row, acc => acc ++ [row ++ [String.mk field]]
  | true, '"' :: '"' :: rest, field, row, acc => csvScan true rest (field ++ ['"']) row acc
  | true, '"' :: rest, field, row, acc => csvScan false rest field row acc
  | true, c :: rest, field, row, acc => csvScan true rest (field ++ [c]) row acc
  | false, [], field, row, acc =>
    if field.isEmpty && row.isEmpty then acc else acc ++ [row ++ [String.mk field]]
  | false, ',' :: rest, field, row, acc =>
    csvScan false rest [] (row ++ [String.mk field]) acc
  | false, '\r' :: '\n' :: rest, field, row, acc =>
    csvScan false rest [] []
      (acc ++ [if field.isEmpty && row.isEmpty then [] else row ++ [String.mk field]])
  | false, '\n' :: rest, field, row, acc =>
    csvScan false rest [] []
      (acc ++ [if field.isEmpty && row.isEmpty then [] else row ++ [String.mk field]])
  | false, '\r' :: rest, field, row, acc =>
    csvScan false rest [] []
      (acc ++ [if field.isEmpty && row.isEmpty then [] else row ++ [String.mk field]])
  | false, '"' :: rest, field, row, acc =>
    if field.isEmpty then csvScan true rest [] row acc
    else csvScan false rest (field ++ ['"']) row acc
  | false, c :: rest, field, row, acc => csvScan false rest (field ++ [c]) row acc

/-- All rows of a CSV text, in `csv.reader` fashion. -/
def csvRows (content : String) : List (List String) :=
  csvScan false content.data [] [] []

/-- One dictionary of `csv.DictReader`: headers zipped with the row's
values, missing values filled with the `None` rest-value, and every value
passed through the `v.strip() if v else ""` comprehension of
`parse_csv_file`. -/
def dictRow (headers vals : List String) : Record :=
  (headers.zip (vals ++ List.replicate (headers.length - vals.length) "")).map
    fun p => (p.1, pyStrip p.2)

/-- Embeds `parse_csv_file` (src/services/import_service.py, lines 87-108) applied
to the text of an existing CSV file: `csv.DictReader` rows (the first CSV
row is the header row; blank rows are skipped by `DictReader`) with
whitespace stripped from every value. -/
def parse_csv_file (content : String) : List Record :=
  match csvRows content with
  | [] => []
  | headers :: rows =>
    (rows.filter fun r => !r.isEmpty).map fun row => dictRow headers row

/-! ### `src/services/git_commit_service.py` and the date machinery -/

/-- Embeds `format_date_for_filename` (src/services/import_service.py, lines
22-33): replace every colon by a dash and delete every `Z`. -/
def format_date_for_filename (date_str : String) : String :=
  String.mk (replaceAllChars (replaceAllChars date_str.data ':' ['-']) 'Z' [])

/-- The leading-date pattern of `parse_date_from_filename`
(src/services/git_commit_service.py, line 21): the regular expression
`\d{4}-\d{2}-\d{2}T\d{2}-\d{2}-\d{2}` followed by a dash, anchored at the
start; returns the 19-character group on success. -/
def matchLeadingDate (cs : List Char) : Option (List Char) :=
  match cs with
  | c1 :: c2 :: c3 :: c4 :: c5 :: c6 :: c7 :: c8 :: c9 :: c10 :: c11 :: c12 :: c13 ::
      c14 :: c15 :: c16 :: c17 :: c18 :: c19 :: c20 :: _ =>
    if c1.isDigit && c2.isDigit && c3.isDigit && c4.isDigit && c5 = '-' &&
        c6.isDigit && c7.isDigit && c8 = '-' && c9.isDigit && c10.isDigit &&
        c11 = 'T' && c12.isDigit && c13.isDigit && c14 = '-' &&
        c15.isDigit && c16.isDigit && c17 = '-' && c18.isDigit && c19.isDigit &&
        c20 = '-' then
      some [c1, c2, c3, c4, c5, c6, c7, c8, c9, c10, c11, c12, c13, c14, c15, c16,
        c17, c18, c19]
    else none
  | _ => none

/-- The date-string reconstruction of `parse_date_from_filename`
(src/services/git_commit_service.py, lines 26-34): turn the group's first
three dashes into colons and the first two resulting colons back into
dashes, split on `T`, and when that yields exactly two parts restore the
colons of the time part and append `Z`. -/
def rebuildDate (g : List Char) : String :=
  let step1 := replaceCountChars g '-' [':'] 3
  let date_str := replaceCountChars step1 ':' ['-'] 2
  match splitChar date_str 'T' with
  | [date_part, time_part] =>
    String.mk date_part ++ "T" ++ String.mk (replaceAllChars time_part '-' [':']) ++ "Z"
  | _ => String.mk date_str

/-- Embeds `parse_date_from_filename` (src/services/git_commit_service.py, lines
9-34): `none` when the leading-date pattern does not match, otherwise the
rebuilt ISO date string. -/
def parse_date_from_filename (filename : String) : Option String :=
  match matchLeadingDate filename.data with
  | none => none
  | some g => some (rebuildDate g)

/-- The components of a Python `datetime`. -/
structure PyDateTime where
  year : Nat
  month : Nat
  day : Nat
  hour : Nat
  minute : Nat
  second : Nat
  deriving DecidableEq

/-- Gregorian leap-year test, as in Python's `calendar`/`datetime`. -/
def isLeap (y : Nat) : Bool :=
  (y % 4 = 0 && y % 100 != 0) || y % 400 = 0

/-- Days in a month, as validated by Python's `datetime`. -/
def daysInMonth (y m : Nat) : Nat :=
  if m = 2 then (if isLeap y then 29 else 28)
  else if m = 4 || m = 6 || m = 9 || m = 11 then 30
  else 31

/-- Modelled from Python's `datetime.fromisoformat`, restricted to the
`YYYY-MM-DDTHH:MM:SS+00:00` shape that the sources feed it (every call
first rewrites the trailing `Z` to `+00:00`): parses the six numeric
fields and validates their calendar ranges, `none` modelling the raised
`ValueError`. -/
def fromisoformat (cs : List Char) : Option PyDateTime :=
  match cs with
  | [c1, c2, c3, c4, s1, c5, c6, s2, c7, c8, s3, c9, c10, s4, c11, c12, s5, c13, c14,
      o1, o2, o3, o4, o5, o6] =>
    if c1.isDigit && c2.isDigit && c3.isDigit && c4.isDigit && s1 = '-' &&
        c5.isDigit && c6.isDigit && s2 = '-' && c7.isDigit && c8.isDigit &&
        s3 = 'T' && c9.isDigit && c10.isDigit && s4 = ':' && c11.isDigit &&
        c12.isDigit && s5 = ':' && c13.isDigit && c14.isDigit &&
        o1 = '+' && o2 = '0' && o3 = '0' && o4 = ':' && o5 = '0' && o6 = '0' then
      let year := digitVal c1 * 1000 + digitVal c2 * 100 + digitVal c3 * 10 + digitVal c4
      let month := digitVal c5 * 10 + digitVal c6
      let day := digitVal c7 * 10 + digitVal c8
      let hour := digitVal c9 * 10 + digitVal c10
      let minute := digitVal c11 * 10 + digitVal c12
      let second := digitVal c13 * 10 + digitVal c14
      if 1 ≤ year ∧ 1 ≤ month ∧ month ≤ 12 ∧ 1 ≤ day ∧ day ≤ daysInMonth year month ∧
          hour ≤ 23 ∧ minute ≤ 59 ∧ second ≤ 59 then
        some ⟨year, month, day, hour, minute, second⟩
      else none
    else none
  | _ => none

/-- Embeds `format_date_for_git` (src/services/git_commit_service.py, lines
37-60): parse the ISO date (after rewriting `Z` to `+00:00`) and render
`f"{year}-{month:02d}-{day:02d} {hour:02d}:{minute:02d}:{second:02d} +0000"`;
a parse failure returns the input unchanged. -/
def format_date_for_git (iso_date : String) : String :=
  match fromisoformat (replaceAllChars iso_date.data 'Z' ("+00:00".data)) with
  | none => iso_date
  | some d =>
    String.mk (natToDecimal d.year) ++ "-" ++ String.mk (pad2 d.month) ++ "-" ++
      String.mk (pad2 d.day) ++ " " ++ String.mk (pad2 d.hour) ++ ":" ++
      String.mk (pad2 d.minute) ++ ":" ++ String.mk (pad2 d.second) ++ " +0000"

/-- Rendering of a `PyDateTime` by `strftime("%Y-%m-%d %H:%M:%S")`, used by
the markdown generators. -/
def strftimeDisplay (d : PyDateTime) : String :=
  String.mk (natToDecimal d.year) ++ "-" ++ String.mk (pad2 d.month) ++ "-" ++
    String.mk (pad2 d.day) ++ " " ++ String.mk (pad2 d.hour) ++ ":" ++
    String.mk (pad2 d.minute) ++ ":" ++ String.mk (pad2 d.second)

/-! ### `src/services/import_service.py` -/

/-- Embeds `is_valid_commit` (lines 7-9): the `author_date` and `short_sha` fields
are present and non-empty (the only falsy values arising from
`parse_csv_file` are missing keys and empty strings). -/
def is_valid_commit (commit : Record) : Bool :=
  !(recGet commit "author_date" == "") && !(recGet commit "short_sha" == "")

/-- Embeds `is_valid_pull_request` (lines 12-14). -/
def is_valid_pull_request (pr : Record) : Bool :=
  !(recGet pr "author_date" == "") && !(recGet pr "short_sha" == "")

/-- Embeds `is_valid_code_review` (lines 17-19). -/
def is_valid_code_review (review : Record) : Bool :=
  !(recGet review "submitted_at" == "") && !(recGet review "review_id" == "")

/-- Embeds `generate_commit_markdown` (lines 36-50); the `try/except` around the
date parse is the `match`. -/
def generate_commit_markdown (commit : Record) : String :=
  let date :=
    match fromisoformat (replaceAllChars (recGet commit "author_date").data 'Z'
        ("+00:00".data)) with
    | some d => strftimeDisplay d
    | none => recGet commit "author_date"
  "# Commit\n\n- **Date**: " ++ date ++ "\n- **SHA**: `" ++
    recGet commit "short_sha" ++ "`\n- **Full SHA**: `" ++ recGet commit "sha" ++
    "`\n- **Author**: " ++ recGet commit "author_name" ++ "\n"

/-- The commit `get_file_name` lambda of `import_commits_from_csv`
(line 223): `f"{format_date_for_filename(commit['author_date'])}-{commit['short_sha']}.md"`. -/
def commit_file_name (commit : Record) : String :=
  format_date_for_filename (recGet commit "author_date") ++ "-" ++
    recGet commit "short_sha" ++ ".md"

/-- The statistics dictionary returned by `import_items_from_csv`. -/
structure ImportStats where
  total : Nat
  valid : Nat
  discarded : Nat
  imported : Nat
  skipped : Nat
  deriving DecidableEq

/-- A filesystem mutation performed by `import_items_from_csv`. -/
inductive FsEvent where
  | mkdirOut : FsEvent
  | writeFile (name : String) (content : String) : FsEvent
  | deleteCsv : FsEvent
  deriving DecidableEq

/-- The error raised by `import_items_from_csv`. -/
inductive ImportError where
  | fileNotFound : ImportError
  deriving DecidableEq

instance {ε α : Type} [DecidableEq ε] [DecidableEq α] : DecidableEq (Except ε α) :=
  fun a b =>
    match a, b with
    | .error e, .error f =>
      if h : e = f then isTrue (by rw [h]) else isFalse (by intro hc; cases hc; exact h rfl)
    | .ok x, .ok y =>
      if h : x = y then isTrue (by rw [h]) else isFalse (by intro hc; cases hc; exact h rfl)
    | .error _, .ok _ => isFalse (by intro hc; cases hc)
    | .ok _, .error _ => isFalse (by intro hc; cases hc)

/-- The per-item loop of `import_items_from_csv` (lines 159-185): walk the
valid items; a filename already on disk (or written earlier in this run) is
skipped, any other is written.  Returns the write events together with the
`imported` and `skipped` counters. -/
def processItems {α : Type} (generate_markdown : α → String) (get_file_name : α → String) :
    List α → List String → List FsEvent × Nat × Nat
  | [], _ => ([], 0, 0)
  | item :: rest, existing =>
    let filename := get_file_name item
    if existing.contains filename then
      let r := processItems generate_markdown get_file_name rest existing
      (r.1, r.2.1, r.2.2 + 1)
    else
      let r := processItems generate_markdown get_file_name rest (filename :: existing)
      (FsEvent.writeFile filename (generate_markdown item) :: r.1, r.2.1 + 1, r.2.2)

/-- Embeds `import_items_from_csv` (lines 111-208) over an abstract filesystem:
`csvExists` is whether the CSV file exists, `rows` the records
`parse_csv_file` yields from it, `existingFiles` the markdown files already
in the output directory.  Returns the list of filesystem mutations in
order, and either the file-not-found error or the statistics dictionary.
The early return at lines 155-157 (no valid items) hands back hard-coded
zero statistics and reaches neither the write loop nor the `csv_path.unlink()`. -/
def import_items_from_csv {α : Type} (csvExists : Bool) (rows : List α)
    (existingFiles : List String) (is_valid_item : α → Bool)
    (generate_markdown : α → String) (get_file_name : α → String) :
    List FsEvent × Except ImportError ImportStats :=
  if csvExists = false then ([], .error .fileNotFound)
  else
    let all_items := rows
    let items := all_items.filter fun i => is_valid_item i
    let discarded := all_items.length - items.length
    if items.isEmpty then
      ([.mkdirOut], .ok ⟨0, 0, 0, 0, 0⟩)
    else
      let r := processItems generate_markdown get_file_name items existingFiles
      (.mkdirOut :: r.1 ++ [.deleteCsv],
        .ok ⟨all_items.length, items.length, discarded, r.2.1, r.2.2⟩)

/-! ### `src/cli_components/args.py` -/

/-- The three fetch flags produced by the types argument. -/
structure FetchFlags where
  fetchCommits : Bool
  fetchPullRequests : Bool
  fetchCodeReviews : Bool
  deriving DecidableEq

/-- The tokens of a types argument, as `parse_args` derives them
(line 48): lower-case, split on commas, strip each token. -/
def typesTokens (types_arg : String) : List String :=
  (splitChar (pyLower types_arg).data ',').map fun t => String.mk (pyStripList t)

/-- The `if types_arg:` block of `parse_args`
(src/cli_components/args.py, lines 46-75): lower-case the argument, split
on commas, strip each token, handle the `all`/`both` special cases, then
set flags by token membership; `none` models the error message plus
`sys.exit(1)` taken when every flag stays off. -/
def parse_types_arg (types_arg : String) : Option FetchFlags :=
  let normalized := pyLower types_arg
  let types := typesTokens types_arg
  if normalized == "all" || types.contains "all" then
    some ⟨true, true, true⟩
  else if normalized == "both" then
    some ⟨true, true, false⟩
  else
    let fetch_commits := types.contains "commits" || types.contains "commit"
    let fetch_pull_requests :=
      types.contains "prs" || types.contains "pr" || types.contains "pullrequests"
    let fetch_code_reviews :=
      types.contains "reviews" || types.contains "review" || types.contains "codereviews"
    if !fetch_commits && !fetch_pull_requests && !fetch_code_reviews then none
    else some ⟨fetch_commits, fetch_pull_requests, fetch_code_reviews⟩

/-- The type tokens `parse_args` recognises (including the `all` wildcard
and all aliases). -/
def recognizedTypeTokens : List String :=
  ["all", "commits", "commit", "prs", "pr", "pullrequests", "reviews", "review",
    "codereviews"]

/-! ### `src/api/pull_requests.py` -/

/-- The head reference of a raw pull request (`pr.head`); `none` models a
missing head. -/
structure HeadRef where
  sha : String
  deriving DecidableEq

/-- The fields of a raw PyGithub pull request that `transform_pull_request`
reads.  `datetime` attributes are carried as their `isoformat()` rendering,
with `none` for Python `None`; `merge_commit_sha` is a string, `""`
standing for Python `None` (both are falsy and reach the record
unchanged in the branches the claims concern). -/
structure RawPR where
  number : Nat
  merged : Bool
  merge_commit_sha : String
  head : Option HeadRef
  title : String
  state : String
  created_at : Option String
  merged_at : Option String
  closed_at : Option String
  user : Option String
  draft : Bool
  owner : String
  repoName : String
  html_url : String
  url : String
  node_id : String

/-- The record built by `transform_pull_request`
(src/api/pull_requests.py, lines 6-41). -/
structure PRRecord where
  typeName : String
  number : Nat
  sha : String
  short_sha : String
  title : String
  state : String
  created_at : String
  merged_at : String
  closed_at : String
  author_name : String
  author_date : String
  repo : String
  repo_owner : String
  repo_name : String
  url : String
  api_url : String
  node_id : String
  merged : Bool
  draft : Bool
  head_sha : String
  merge_commit_sha : String

/-- Embeds `dt.isoformat().replace("+00:00", "Z") if dt else ""`. -/
def isoZ (dt : Option String) : String :=
  match dt with
  | some s => pyReplaceSub s "+00:00" "Z"
  | none => ""

/-- The newline sanitisation applied to PR titles: `\n` and `\r` become
spaces, then the ends are stripped. -/
def sanitizeTitle (s : String) : String :=
  pyStrip (String.mk (replaceAllChars (replaceAllChars s.data '\n' [' ']) '\r' [' ']))

/-- Embeds `transform_pull_request` (src/api/pull_requests.py, lines 6-41).  The
resolved `sha` is the merge-commit SHA when merged, else the head SHA when
a head exists, else the empty string; `short_sha` is its 7-character slice
when it is truthy and the `f"pr-{pr.number}"` placeholder otherwise. -/
def transform_pull_request (pr : RawPR) : PRRecord :=
  let sha := if pr.merged then pr.merge_commit_sha
    else (match pr.head with
      | some h => h.sha
      | none => "")
  let short_sha := if sha ≠ "" then pyTake sha 7 else "pr-" ++ toString pr.number
  { typeName := "pull-request"
    number := pr.number
    sha := sha
    short_sha := short_sha
    title := sanitizeTitle pr.title
    state := pr.state
    created_at := isoZ pr.created_at
    merged_at := isoZ pr.merged_at
    closed_at := isoZ pr.closed_at
    author_name := (pr.user).getD ""
    author_date := isoZ pr.created_at
    repo := pr.owner ++ "/" ++ pr.repoName
    repo_owner := pr.owner
    repo_name := pr.repoName
    url := pr.html_url
    api_url := pr.url
    node_id := pr.node_id
    merged := pr.merged
    draft := pr.draft
    head_sha := (match pr.head with
      | some h => h.sha
      | none => "")
    merge_commit_sha := if pr.merged then pr.merge_commit_sha else "" }

/-! ### `src/api/code_reviews.py` -/

/-- The fields of a raw PyGithub review that the search pipeline reads.
`user` is the author's login (`none` for a falsy `review.user`) and
`submitted_at` an abstract chronological instant: `datetime` values are
modelled as `Nat` ordered as the datetimes are. -/
structure RawReview where
  id : Nat
  user : Option String
  state : String
  submitted_at : Option Nat
  body : Option String
  html_url : String
  commit_id : String
  deriving DecidableEq

/-- The record built by `transform_code_review`
(src/api/code_reviews.py, lines 6-30); the PR side is a `RawPR`. -/
structure ReviewRecord where
  typeName : String
  review_id : Nat
  state : String
  submitted_at : Option Nat
  pr_number : Nat
  pr_title : String
  repo : String
  repo_owner : String
  repo_name : String
  reviewer_name : String
  review_body : String
  pr_url : String
  review_url : String
  commit_id : String
  deriving DecidableEq

/-- Embeds `transform_code_review` (src/api/code_reviews.py, lines 6-30).  The
`submitted_at` instant is carried abstractly rather than ISO-rendered. -/
def transform_code_review (review : RawReview) (pr : RawPR) : ReviewRecord :=
  { typeName := "code-review"
    review_id := review.id
    state := review.state
    submitted_at := review.submitted_at
    pr_number := pr.number
    pr_title := sanitizeTitle pr.title
    repo := pr.owner ++ "/" ++ pr.repoName
    repo_owner := pr.owner
    repo_name := pr.repoName
    reviewer_name := (review.user).getD ""
    review_body := (match review.body with
      | some b => sanitizeTitle b
      | none => "")
    pr_url := pr.html_url
    review_url := review.html_url
    commit_id := review.commit_id }

/-- The review filter of `search_user_code_reviews`
(src/api/code_reviews.py, lines 108-120): keep reviews authored by the
target user whose state is not `"DISMISSED"`, and, when a since-instant is
given, only those with a submission instant at or after it. -/
def filter_user_reviews (reviews : List RawReview) (username : String)
    (since : Option Nat) : List RawReview :=
  let user_reviews := reviews.filter fun review =>
    (match review.user with
      | some u => u == username
      | none => false) && !(review.state == "DISMISSED")
  match since with
  | none => user_reviews
  | some s => user_reviews.filter fun review =>
      (match review.submitted_at with
        | some t => decide (s ≤ t)
        | none => false)

/-- The transformed reviews one PR contributes to the output of
`search_user_code_reviews` (lines 122-124). -/
def pr_review_records (reviews : List RawReview) (username : String)
    (since : Option Nat) (pr : RawPR) : List ReviewRecord :=
  (filter_user_reviews reviews username since).map fun review =>
    transform_code_review review pr

/-! ### Well-formed timestamps for the filename claims -/

/-- The fourteen decimal digits of a `YYYY-MM-DDTHH:MM:SSZ` timestamp. -/
structure TsDigits where
  y1 : Nat
  y2 : Nat
  y3 : Nat
  y4 : Nat
  mo1 : Nat
  mo2 : Nat
  d1 : Nat
  d2 : Nat
  h1 : Nat
  h2 : Nat
  mi1 : Nat
  mi2 : Nat
  s1 : Nat
  s2 : Nat

/-- The characters of the timestamp `YYYY-MM-DDTHH:MM:SSZ` with the given
digits. -/
def TsDigits.chars (t : TsDigits) : List Char :=
  [digitChar t.y1, digitChar t.y2, digitChar t.y3, digitChar t.y4, '-',
    digitChar t.mo1, digitChar t.mo2, '-', digitChar t.d1, digitChar t.d2, 'T',
    digitChar t.h1, digitChar t.h2, ':', digitChar t.mi1, digitChar t.mi2, ':',
    digitChar t.s1, digitChar t.s2, 'Z']

/-- The rendered timestamp string. -/
def TsDigits.render (t : TsDigits) : String := String.mk t.chars

/-- Shape well-formedness: every digit position holds a decimal digit. -/
def TsDigits.wf (t : TsDigits) : Prop :=
  t.y1 < 10 ∧ t.y2 < 10 ∧ t.y3 < 10 ∧ t.y4 < 10 ∧ t.mo1 < 10 ∧ t.mo2 < 10 ∧
    t.d1 < 10 ∧ t.d2 < 10 ∧ t.h1 < 10 ∧ t.h2 < 10 ∧ t.mi1 < 10 ∧ t.mi2 < 10 ∧
    t.s1 < 10 ∧ t.s2 < 10

instance (t : TsDigits) : Decidable t.wf := by
  unfold TsDigits.wf
  infer_instance

/-- The year denoted by the four year digits. -/
def TsDigits.year (t : TsDigits) : Nat :=
  t.y1 * 1000 + t.y2 * 100 + t.y3 * 10 + t.y4

/-- Calendar validity of a well-formed timestamp, as `datetime` checks it;
the four-digit year field is taken to denote years 1000-9999, the range on
which its decimal rendering is again four digits. -/
def TsDigits.validDate (t : TsDigits) : Prop :=
  1 ≤ t.y1 ∧ 1 ≤ t.mo1 * 10 + t.mo2 ∧ t.mo1 * 10 + t.mo2 ≤ 12 ∧
    1 ≤ t.d1 * 10 + t.d2 ∧ t.d1 * 10 + t.d2 ≤ daysInMonth t.year (t.mo1 * 10 + t.mo2) ∧
    t.h1 * 10 + t.h2 ≤ 23 ∧ t.mi1 * 10 + t.mi2 ≤ 59 ∧ t.s1 * 10 + t.s2 ≤ 59

instance (t : TsDigits) : Decidable t.validDate := by
  unfold TsDigits.validDate
  infer_instance

/-- The characters of `format_date_for_filename t.render`: the timestamp
with its colons replaced by dashes and the `Z` dropped. -/
def fmtChars (t : TsDigits) : List Char :=
  [digitChar t.y1, digitChar t.y2, digitChar t.y3, digitChar t.y4, '-',
   digitChar t.mo1, digitChar t.mo2, '-', digitChar t.d1, digitChar t.d2, 'T',
   digitChar t.h1, digitChar t.h2, '-', digitChar t.mi1, digitChar t.mi2, '-',
   digitChar t.s1, digitChar t.s2]

/-- The characters of the git date `YYYY-MM-DD HH:MM:SS +0000` carrying the
timestamp's own digits. -/
def gitDateChars (t : TsDigits) : List Char :=
  [digitChar t.y1, digitChar t.y2, digitChar t.y3, digitChar t.y4, '-',
   digitChar t.mo1, digitChar t.mo2, '-', digitChar t.d1, digitChar t.d2, ' ',
   digitChar t.h1, digitChar t.h2, ':', digitChar t.mi1, digitChar t.mi2, ':',
   digitChar t.s1, digitChar t.s2, ' ', '+', '0', '0', '0', '0']

/-! ### Concrete fixtures used in counterexamples and witnesses -/

/-- The digits of the timestamp `2024-03-01T12:00:00Z` of the worked spec
example. -/
def tsExample : TsDigits := ⟨2, 0, 2, 4, 0, 3, 0, 1, 1, 2, 0, 0, 0, 0⟩

/-- The digits of the timestamp `2024-03-01T12:00:01Z`, one second later. -/
def tsExampleLater : TsDigits := ⟨2, 0, 2, 4, 0, 3, 0, 1, 1, 2, 0, 0, 0, 1⟩

/-- A CSV row that passes the commit required-field check. -/
def goodCommitRow : Record :=
  [("author_date", "2024-03-01T12:00:00Z"), ("short_sha", "abc1234")]

/-- A CSV row that fails the commit required-field check: its short
identifier is empty. -/
def badCommitRow : Record :=
  [("author_date", "2024-03-01T12:00:00Z"), ("short_sha", "")]

/-- An unmerged pull request with no head branch: neither SHA source is
available. -/
def prHeadless : RawPR :=
  { number := 5, merged := false, merge_commit_sha := "", head := none, title := "Fix bug",
    state := "closed", created_at := none, merged_at := none, closed_at := none,
    user := some "octo", draft := false, owner := "acme", repoName := "widgets",
    html_url := "u", url := "a", node_id := "n" }

/-- A merged pull request whose merge commit and unmerged head both carry a
SHA, as in the spec's worked example. -/
def prMerged : RawPR :=
  { number := 7, merged := true, merge_commit_sha := "deadbee",
    head := some ⟨"feedface"⟩, title := "Add feature", state := "closed",
    created_at := some "2024-03-01T12:00:00+00:00", merged_at := none, closed_at := none,
    user := some "octo", draft := false, owner := "acme", repoName := "widgets",
    html_url := "u", url := "a", node_id := "n" }

end Unicon

namespace Unicon

/-! ### Helper lemmas and claim theorems -/

theorem digitChar_isDigit {n : Nat} (h : n < 10) : (digitChar n).isDigit = true := by
  interval_cases n <;> decide

theorem digitChar_ne_colon {n : Nat} (h : n < 10) : digitChar n ≠ ':' := by
  interval_cases n <;> decide

theorem digitChar_ne_Z {n : Nat} (h : n < 10) : digitChar n ≠ 'Z' := by
  interval_cases n <;> decide

theorem digitChar_ne_dash {n : Nat} (h : n < 10) : digitChar n ≠ '-' := by
  interval_cases n <;> decide

theorem digitChar_ne_T {n : Nat} (h : n < 10) : digitChar n ≠ 'T' := by
  interval_cases n <;> decide

theorem digitVal_digitChar {n : Nat} (h : n < 10) : digitVal (digitChar n) = n := by
  interval_cases n <;> decide

theorem replaceAll_nil (old : Char) (new : List Char) : replaceAllChars [] old new = [] := rfl

theorem replaceAll_cons_self (old : Char) (rest : List Char) (new : List Char) :
    replaceAllChars (old :: rest) old new = new ++ replaceAllChars rest old new := by
  simp [replaceAllChars]

theorem replaceAll_cons_ne {c old : Char} (h : c ≠ old) (rest : List Char) (new : List Char) :
    replaceAllChars (c :: rest) old new = c :: replaceAllChars rest old new := by
  simp [replaceAllChars, h]

/-- Evaluation of `format_date_for_filename` on a well-formed timestamp:
the colons become dashes and the `Z` disappears. -/
theorem format_render (t : TsDigits) (h : t.wf) :
    format_date_for_filename t.render = String.mk (fmtChars t) := by
  obtain ⟨h1, h2, h3, h4, h5, h6, h7, h8, h9, h10, h11, h12, h13, h14⟩ := h
  simp only [format_date_for_filename, TsDigits.render, TsDigits.chars, fmtChars]
  simp only [replaceAll_cons_ne (digitChar_ne_colon h1),
    replaceAll_cons_ne (digitChar_ne_colon h2), replaceAll_cons_ne (digitChar_ne_colon h3),
    replaceAll_cons_ne (digitChar_ne_colon h4), replaceAll_cons_ne (digitChar_ne_colon h5),
    replaceAll_cons_ne (digitChar_ne_colon h6), replaceAll_cons_ne (digitChar_ne_colon h7),
    replaceAll_cons_ne (digitChar_ne_colon h8), replaceAll_cons_ne (digitChar_ne_colon h9),
    replaceAll_cons_ne (digitChar_ne_colon h10), replaceAll_cons_ne (digitChar_ne_colon h11),
    replaceAll_cons_ne (digitChar_ne_colon h12), replaceAll_cons_ne (digitChar_ne_colon h13),
    replaceAll_cons_ne (digitChar_ne_colon h14),
    replaceAll_cons_ne (show ('-' : Char) ≠ ':' by decide),
    replaceAll_cons_ne (show ('T' : Char) ≠ ':' by decide),
    replaceAll_cons_ne (show ('Z' : Char) ≠ ':' by decide),
    replaceAll_cons_self, replaceAll_nil, List.cons_append, List.nil_append]
  simp only [replaceAll_cons_ne (digitChar_ne_Z h1),
    replaceAll_cons_ne (digitChar_ne_Z h2), replaceAll_cons_ne (digitChar_ne_Z h3),
    replaceAll_cons_ne (digitChar_ne_Z h4), replaceAll_cons_ne (digitChar_ne_Z h5),
    replaceAll_cons_ne (digitChar_ne_Z h6), replaceAll_cons_ne (digitChar_ne_Z h7),
    replaceAll_cons_ne (digitChar_ne_Z h8), replaceAll_cons_ne (digitChar_ne_Z h9),
    replaceAll_cons_ne (digitChar_ne_Z h10), replaceAll_cons_ne (digitChar_ne_Z h11),
    replaceAll_cons_ne (digitChar_ne_Z h12), replaceAll_cons_ne (digitChar_ne_Z h13),
    replaceAll_cons_ne (digitChar_ne_Z h14),
    replaceAll_cons_ne (show ('-' : Char) ≠ 'Z' by decide),
    replaceAll_cons_ne (show ('T' : Char) ≠ 'Z' by decide),
    replaceAll_cons_self, replaceAll_nil, List.cons_append, List.nil_append]


theorem lex_digit_step {a b : Char} {l1 l2 m1 m2 : List Char}
    (hrec : List.Lex (· < ·) l1 l2 → List.Lex (· < ·) m1 m2) :
    List.Lex (· < ·) (a :: l1) (b :: l2) → List.Lex (· < ·) (a :: m1) (b :: m2) := by
  intro h
  cases h with
  | cons h => exact List.Lex.cons (hrec h)
  | rel h => exact List.Lex.rel h

theorem lex_sep_step {c e : Char} {l1 l2 m1 m2 : List Char}
    (hrec : List.Lex (· < ·) l1 l2 → List.Lex (· < ·) m1 m2) :
    List.Lex (· < ·) (c :: l1) (c :: l2) → List.Lex (· < ·) (e :: m1) (e :: m2) := by
  intro h
  cases h with
  | cons h => exact List.Lex.cons (hrec h)
  | rel h => exact absurd h (lt_irrefl c)

theorem lex_last_step {m1 m2 : List Char} :
    List.Lex (· < ·) ['Z'] ['Z'] → List.Lex (· < ·) m1 m2 := by
  intro h
  cases h with
  | cons h => cases h
  | rel h => exact absurd h (lt_irrefl 'Z')

/-- C6: markdown filenames are strictly lexicographically sortable by
timestamp.  For any two commit records whose `author_date` fields are
well-formed `YYYY-MM-DDTHH:MM:SSZ` timestamps with `t1 < t2`, the
filenames `commit_file_name` generates (via `format_date_for_filename`,
dashes for colons, `Z` dropped, then the short identifier) compare in the
same order, whatever the two short identifiers are. -/
theorem filenames_sorted_by_timestamp (t1 t2 : TsDigits) (r1 r2 : Record)
    (h1 : t1.wf) (h2 : t2.wf)
    (hr1 : recGet r1 "author_date" = t1.render) (hr2 : recGet r2 "author_date" = t2.render)
    (hlt : t1.render < t2.render) :
    commit_file_name r1 < commit_file_name r2 := by
  rw [String.lt_iff_toList_lt] at hlt
  have hlt2 : List.Lex (· < ·) t1.chars t2.chars := hlt
  rw [commit_file_name, commit_file_name, hr1, hr2, format_render t1 h1, format_render t2 h2]
  rw [String.lt_iff_toList_lt]
  show List.Lex (· < ·)
    (String.mk (fmtChars t1) ++ "-" ++ recGet r1 "short_sha" ++ ".md").data
    (String.mk (fmtChars t2) ++ "-" ++ recGet r2 "short_sha" ++ ".md").data
  simp only [String.data_append, fmtChars, List.cons_append, List.nil_append,
    List.append_assoc]
  simp only [TsDigits.chars] at hlt2
  show List.Lex (· < ·)
    (digitChar t1.y1 :: digitChar t1.y2 :: digitChar t1.y3 :: digitChar t1.y4 :: '-' ::
      digitChar t1.mo1 :: digitChar t1.mo2 :: '-' :: digitChar t1.d1 :: digitChar t1.d2 :: 'T' ::
      digitChar t1.h1 :: digitChar t1.h2 :: '-' :: digitChar t1.mi1 :: digitChar t1.mi2 :: '-' ::
      digitChar t1.s1 :: digitChar t1.s2 :: '-' ::
      ((recGet r1 "short_sha").data ++ ['.', 'm', 'd']))
    (digitChar t2.y1 :: digitChar t2.y2 :: digitChar t2.y3 :: digitChar t2.y4 :: '-' ::
      digitChar t2.mo1 :: digitChar t2.mo2 :: '-' :: digitChar t2.d1 :: digitChar t2.d2 :: 'T' ::
      digitChar t2.h1 :: digitChar t2.h2 :: '-' :: digitChar t2.mi1 :: digitChar t2.mi2 :: '-' ::
      digitChar t2.s1 :: digitChar t2.s2 :: '-' ::
      ((recGet r2 "short_sha").data ++ ['.', 'm', 'd']))
  exact lex_digit_step (lex_digit_step (lex_digit_step (lex_digit_step (lex_sep_step
    (lex_digit_step (lex_digit_step (lex_sep_step (lex_digit_step (lex_digit_step
    (lex_sep_step (lex_digit_step (lex_digit_step (lex_sep_step (lex_digit_step
    (lex_digit_step (lex_sep_step (lex_digit_step (lex_digit_step
    lex_last_step)))))))))))))))))) hlt2


theorem ntdAux_lt10 {n fuel : Nat} (hf : 1 ≤ fuel) (h : n < 10) :
    ntdAux fuel n = [digitChar n] := by
  cases fuel with
  | zero => omega
  | succ f => simp [ntdAux, h]

theorem ntdAux_two {a b fuel : Nat} (ha1 : 1 ≤ a) (ha : a < 10) (hb : b < 10)
    (hf : a * 10 + b < fuel) : ntdAux fuel (a * 10 + b) = [digitChar a, digitChar b] := by
  cases fuel with
  | zero => omega
  | succ f =>
    have h10 : ¬(a * 10 + b < 10) := by omega
    have hdiv : (a * 10 + b) / 10 = a := by omega
    have hmod : (a * 10 + b) % 10 = b := by omega
    simp only [ntdAux, h10, if_false, hdiv, hmod]
    rw [ntdAux_lt10 (by omega) ha]
    rfl

theorem ntdAux_four {a b c d fuel : Nat} (ha1 : 1 ≤ a) (ha : a < 10) (hb : b < 10)
    (hc : c < 10) (hd : d < 10) (hf : a * 1000 + b * 100 + c * 10 + d < fuel) :
    ntdAux fuel (a * 1000 + b * 100 + c * 10 + d) =
      [digitChar a, digitChar b, digitChar c, digitChar d] := by
  cases fuel with
  | zero => omega
  | succ f =>
    have h10 : ¬(a * 1000 + b * 100 + c * 10 + d < 10) := by omega
    have hdiv : (a * 1000 + b * 100 + c * 10 + d) / 10 = a * 100 + b * 10 + c := by omega
    have hmod : (a * 1000 + b * 100 + c * 10 + d) % 10 = d := by omega
    simp only [ntdAux, h10, if_false, hdiv, hmod]
    cases f with
    | zero => omega
    | succ f2 =>
      have h10b : ¬(a * 100 + b * 10 + c < 10) := by omega
      have hdivb : (a * 100 + b * 10 + c) / 10 = a * 10 + b := by omega
      have hmodb : (a * 100 + b * 10 + c) % 10 = c := by omega
      simp only [ntdAux, h10b, if_false, hdivb, hmodb]
      rw [ntdAux_two ha1 ha hb (by omega)]
      rfl

theorem natToDecimal_four {a b c d : Nat} (ha1 : 1 ≤ a) (ha : a < 10) (hb : b < 10)
    (hc : c < 10) (hd : d < 10) :
    natToDecimal (a * 1000 + b * 100 + c * 10 + d) =
      [digitChar a, digitChar b, digitChar c, digitChar d] :=
  ntdAux_four ha1 ha hb hc hd (by omega)

theorem pad2_two {a b : Nat} (ha : a < 10) (hb : b < 10) :
    pad2 (a * 10 + b) = [digitChar a, digitChar b] := by
  rcases Nat.eq_zero_or_pos a with rfl | ha1
  · have hz : (0 * 10 + b) = b := by omega
    rw [hz]
    have h1 : pad2 b = '0' :: natToDecimal b := by simp [pad2, hb]
    rw [h1, natToDecimal, ntdAux_lt10 (by omega) hb]
    rfl
  · have h10 : ¬(a * 10 + b < 10) := by omega
    simp only [pad2, h10, if_false, natToDecimal]
    exact ntdAux_two ha1 ha hb (by omega)

theorem mk_append (a b : List Char) : String.mk a ++ String.mk b = String.mk (a ++ b) := rfl

theorem replaceCount_zero (cs : List Char) (old : Char) (new : List Char) :
    replaceCountChars cs old new 0 = cs := by cases cs <;> rfl

theorem replaceCount_cons_self (old : Char) (rest : List Char) (new : List Char) (k : Nat) :
    replaceCountChars (old :: rest) old new (k + 1) =
      new ++ replaceCountChars rest old new k := by
  simp [replaceCountChars]

theorem replaceCount_cons_ne {c old : Char} (h : c ≠ old) (rest : List Char)
    (new : List Char) (k : Nat) :
    replaceCountChars (c :: rest) old new (k + 1) =
      c :: replaceCountChars rest old new (k + 1) := by
  simp [replaceCountChars, h]

theorem splitChar_nil (sep : Char) : splitChar [] sep = [[]] := rfl

theorem splitChar_cons_eq (c : Char) (rest : List Char) (sep : Char) :
    splitChar (c :: rest) sep =
      (match splitChar rest sep with
        | [] => if c = sep then [[], []] else [[c]]
        | f :: fs => if c = sep then [] :: f :: fs else (c :: f) :: fs) := rfl

theorem splitChar_ne_nil (cs : List Char) (sep : Char) : splitChar cs sep ≠ [] := by
  induction cs with
  | nil => simp [splitChar]
  | cons c rest ih =>
    rw [splitChar_cons_eq]
    cases h : splitChar rest sep with
    | nil => by_cases hc : c = sep <;> simp [hc]
    | cons f fs => by_cases hc : c = sep <;> simp [hc]

theorem splitChar_cons_sep (sep : Char) (rest : List Char) :
    splitChar (sep :: rest) sep = [] :: splitChar rest sep := by
  rw [splitChar_cons_eq]
  cases h : splitChar rest sep with
  | nil => exact absurd h (splitChar_ne_nil rest sep)
  | cons f fs => simp

theorem splitChar_cons_ne {c sep : Char} (h : c ≠ sep) (rest : List Char) :
    splitChar (c :: rest) sep =
      (c :: (splitChar rest sep).headD []) :: (splitChar rest sep).tail := by
  rw [splitChar_cons_eq]
  cases hs : splitChar rest sep with
  | nil => exact absurd hs (splitChar_ne_nil rest sep)
  | cons f fs => simp [h]

/-- C7: filename-to-git-date recovery inverts filename generation.  For
every calendar-valid timestamp `YYYY-MM-DDTHH:MM:SSZ` (four-digit year,
as in the format), generating the markdown filename and parsing it back
with `parse_date_from_filename` returns the original ISO-8601 string, and
`format_date_for_git` renders that string as `YYYY-MM-DD HH:MM:SS +0000`
built from the same digits.  The witness instantiates the spec's example:
`2024-03-01T12:00:00Z` with `abc1234` gives file
`2024-03-01T12-00-00-abc1234.md` and git date `2024-03-01 12:00:00 +0000`. -/
theorem filename_roundtrip_and_git_date (t : TsDigits) (sha : String) (hwf : t.wf) (hval : t.validDate) :
    parse_date_from_filename
        (commit_file_name [("author_date", t.render), ("short_sha", sha)]) = some t.render ∧
      format_date_for_git t.render = String.mk (gitDateChars t) := by
  obtain ⟨h1, h2, h3, h4, h5, h6, h7, h8, h9, h10, h11, h12, h13, h14⟩ := hwf
  obtain ⟨hy, hmo1, hmo2, hd1, hd2, hh, hmi, hs⟩ := hval
  have hga : recGet [("author_date", t.render), ("short_sha", sha)] "author_date" =
      t.render := by
    simp [recGet, List.lookup]
  have hsha : recGet [("author_date", t.render), ("short_sha", sha)] "short_sha" = sha := by
    simp [recGet, List.lookup]
  have hstep1 : replaceCountChars
      [digitChar t.y1, digitChar t.y2, digitChar t.y3, digitChar t.y4, '-',
        digitChar t.mo1, digitChar t.mo2, '-', digitChar t.d1, digitChar t.d2, 'T',
        digitChar t.h1, digitChar t.h2, '-', digitChar t.mi1, digitChar t.mi2, '-',
        digitChar t.s1, digitChar t.s2] '-' [':'] 3 =
      [digitChar t.y1, digitChar t.y2, digitChar t.y3, digitChar t.y4, ':',
        digitChar t.mo1, digitChar t.mo2, ':', digitChar t.d1, digitChar t.d2, 'T',
        digitChar t.h1, digitChar t.h2, ':', digitChar t.mi1, digitChar t.mi2, '-',
        digitChar t.s1, digitChar t.s2] := by
    simp only [replaceCount_cons_ne (digitChar_ne_dash h1),
      replaceCount_cons_ne (digitChar_ne_dash h2), replaceCount_cons_ne (digitChar_ne_dash h3),
      replaceCount_cons_ne (digitChar_ne_dash h4), replaceCount_cons_ne (digitChar_ne_dash h5),
      replaceCount_cons_ne (digitChar_ne_dash h6), replaceCount_cons_ne (digitChar_ne_dash h7),
      replaceCount_cons_ne (digitChar_ne_dash h8), replaceCount_cons_ne (digitChar_ne_dash h9),
      replaceCount_cons_ne (digitChar_ne_dash h10),
      replaceCount_cons_ne (digitChar_ne_dash h11),
      replaceCount_cons_ne (digitChar_ne_dash h12),
      replaceCount_cons_ne (digitChar_ne_dash h13),
      replaceCount_cons_ne (digitChar_ne_dash h14),
      replaceCount_cons_ne (show ('T' : Char) ≠ '-' by decide),
      replaceCount_cons_self, replaceCount_zero, List.cons_append, List.nil_append]
  have hstep2 : replaceCountChars
      [digitChar t.y1, digitChar t.y2, digitChar t.y3, digitChar t.y4, ':',
        digitChar t.mo1, digitChar t.mo2, ':', digitChar t.d1, digitChar t.d2, 'T',
        digitChar t.h1, digitChar t.h2, ':', digitChar t.mi1, digitChar t.mi2, '-',
        digitChar t.s1, digitChar t.s2] ':' ['-'] 2 =
      [digitChar t.y1, digitChar t.y2, digitChar t.y3, digitChar t.y4, '-',
        digitChar t.mo1, digitChar t.mo2, '-', digitChar t.d1, digitChar t.d2, 'T',
        digitChar t.h1, digitChar t.h2, ':', digitChar t.mi1, digitChar t.mi2, '-',
        digitChar t.s1, digitChar t.s2] := by
    simp only [replaceCount_cons_ne (digitChar_ne_colon h1),
      replaceCount_cons_ne (digitChar_ne_colon h2),
      replaceCount_cons_ne (digitChar_ne_colon h3),
      replaceCount_cons_ne (digitChar_ne_colon h4),
      replaceCount_cons_ne (digitChar_ne_colon h5),
      replaceCount_cons_ne (digitChar_ne_colon h6),
      replaceCount_cons_ne (digitChar_ne_colon h7),
      replaceCount_cons_ne (digitChar_ne_colon h8),
      replaceCount_cons_self, replaceCount_zero, List.cons_append, List.nil_append]
  have hsplit : splitChar
      [digitChar t.y1, digitChar t.y2, digitChar t.y3, digitChar t.y4, '-',
        digitChar t.mo1, digitChar t.mo2, '-', digitChar t.d1, digitChar t.d2, 'T',
        digitChar t.h1, digitChar t.h2, ':', digitChar t.mi1, digitChar t.mi2, '-',
        digitChar t.s1, digitChar t.s2] 'T' =
      [[digitChar t.y1, digitChar t.y2, digitChar t.y3, digitChar t.y4, '-',
        digitChar t.mo1, digitChar t.mo2, '-', digitChar t.d1, digitChar t.d2],
       [digitChar t.h1, digitChar t.h2, ':', digitChar t.mi1, digitChar t.mi2, '-',
        digitChar t.s1, digitChar t.s2]] := by
    simp only [splitChar_cons_ne (digitChar_ne_T h1), splitChar_cons_ne (digitChar_ne_T h2),
      splitChar_cons_ne (digitChar_ne_T h3), splitChar_cons_ne (digitChar_ne_T h4),
      splitChar_cons_ne (digitChar_ne_T h5), splitChar_cons_ne (digitChar_ne_T h6),
      splitChar_cons_ne (digitChar_ne_T h7), splitChar_cons_ne (digitChar_ne_T h8),
      splitChar_cons_ne (digitChar_ne_T h9), splitChar_cons_ne (digitChar_ne_T h10),
      splitChar_cons_ne (digitChar_ne_T h11), splitChar_cons_ne (digitChar_ne_T h12),
      splitChar_cons_ne (digitChar_ne_T h13), splitChar_cons_ne (digitChar_ne_T h14),
      splitChar_cons_ne (show ('-' : Char) ≠ 'T' by decide),
      splitChar_cons_ne (show ((':') : Char) ≠ 'T' by decide),
      splitChar_cons_sep, splitChar_nil, List.headD_cons, List.tail_cons]
  have htime : replaceAllChars
      [digitChar t.h1, digitChar t.h2, ':', digitChar t.mi1, digitChar t.mi2, '-',
        digitChar t.s1, digitChar t.s2] '-' [':'] =
      [digitChar t.h1, digitChar t.h2, ':', digitChar t.mi1, digitChar t.mi2, ':',
        digitChar t.s1, digitChar t.s2] := by
    simp only [replaceAll_cons_ne (digitChar_ne_dash h9),
      replaceAll_cons_ne (digitChar_ne_dash h10),
      replaceAll_cons_ne (digitChar_ne_dash h11),
      replaceAll_cons_ne (digitChar_ne_dash h12),
      replaceAll_cons_ne (digitChar_ne_dash h13),
      replaceAll_cons_ne (digitChar_ne_dash h14),
      replaceAll_cons_ne (show ((':') : Char) ≠ '-' by decide),
      replaceAll_cons_self, replaceAll_nil, List.cons_append, List.nil_append]
  have hrebuild : rebuildDate
      [digitChar t.y1, digitChar t.y2, digitChar t.y3, digitChar t.y4, '-',
        digitChar t.mo1, digitChar t.mo2, '-', digitChar t.d1, digitChar t.d2, 'T',
        digitChar t.h1, digitChar t.h2, '-', digitChar t.mi1, digitChar t.mi2, '-',
        digitChar t.s1, digitChar t.s2] = t.render := by
    rw [rebuildDate]
    simp only [hstep1, hstep2, hsplit]
    rw [htime]
    rw [show ("T" : String) = String.mk ['T'] from rfl,
      show ("Z" : String) = String.mk ['Z'] from rfl, mk_append, mk_append, mk_append]
    rw [TsDigits.render, TsDigits.chars]
    simp [List.cons_append, List.nil_append]
  constructor
  · rw [commit_file_name, hga, hsha, format_render t
      ⟨h1, h2, h3, h4, h5, h6, h7, h8, h9, h10, h11, h12, h13, h14⟩]
    have hdata : (String.mk (fmtChars t) ++ "-" ++ sha ++ ".md").data =
        digitChar t.y1 :: digitChar t.y2 :: digitChar t.y3 :: digitChar t.y4 :: '-' ::
        digitChar t.mo1 :: digitChar t.mo2 :: '-' :: digitChar t.d1 :: digitChar t.d2 :: 'T' ::
        digitChar t.h1 :: digitChar t.h2 :: '-' :: digitChar t.mi1 :: digitChar t.mi2 :: '-' ::
        digitChar t.s1 :: digitChar t.s2 :: '-' :: (sha.data ++ ['.', 'm', 'd']) := by
      simp [String.data_append, fmtChars, List.cons_append, List.nil_append, List.append_assoc]
    have hmatch : matchLeadingDate
        (digitChar t.y1 :: digitChar t.y2 :: digitChar t.y3 :: digitChar t.y4 :: '-' ::
          digitChar t.mo1 :: digitChar t.mo2 :: '-' :: digitChar t.d1 :: digitChar t.d2 :: 'T' ::
          digitChar t.h1 :: digitChar t.h2 :: '-' :: digitChar t.mi1 :: digitChar t.mi2 :: '-' ::
          digitChar t.s1 :: digitChar t.s2 :: '-' :: (sha.data ++ ['.', 'm', 'd'])) =
        some [digitChar t.y1, digitChar t.y2, digitChar t.y3, digitChar t.y4, '-',
          digitChar t.mo1, digitChar t.mo2, '-', digitChar t.d1, digitChar t.d2, 'T',
          digitChar t.h1, digitChar t.h2, '-', digitChar t.mi1, digitChar t.mi2, '-',
          digitChar t.s1, digitChar t.s2] := by
      simp [matchLeadingDate, digitChar_isDigit h1, digitChar_isDigit h2,
        digitChar_isDigit h3, digitChar_isDigit h4, digitChar_isDigit h5,
        digitChar_isDigit h6, digitChar_isDigit h7, digitChar_isDigit h8,
        digitChar_isDigit h9, digitChar_isDigit h10, digitChar_isDigit h11,
        digitChar_isDigit h12, digitChar_isDigit h13, digitChar_isDigit h14]
    rw [parse_date_from_filename, hdata, hmatch, Option.some_inj, hrebuild]
  · have hplus : ("+00:00" : String).data = ['+', '0', '0', ':', '0', '0'] := rfl
    have hrep : replaceAllChars t.chars 'Z' ['+', '0', '0', ':', '0', '0'] =
        [digitChar t.y1, digitChar t.y2, digitChar t.y3, digitChar t.y4, '-',
          digitChar t.mo1, digitChar t.mo2, '-', digitChar t.d1, digitChar t.d2, 'T',
          digitChar t.h1, digitChar t.h2, ':', digitChar t.mi1, digitChar t.mi2, ':',
          digitChar t.s1, digitChar t.s2, '+', '0', '0', ':', '0', '0'] := by
      simp only [TsDigits.chars, replaceAll_cons_ne (digitChar_ne_Z h1),
        replaceAll_cons_ne (digitChar_ne_Z h2), replaceAll_cons_ne (digitChar_ne_Z h3),
        replaceAll_cons_ne (digitChar_ne_Z h4), replaceAll_cons_ne (digitChar_ne_Z h5),
        replaceAll_cons_ne (digitChar_ne_Z h6), replaceAll_cons_ne (digitChar_ne_Z h7),
        replaceAll_cons_ne (digitChar_ne_Z h8), replaceAll_cons_ne (digitChar_ne_Z h9),
        replaceAll_cons_ne (digitChar_ne_Z h10), replaceAll_cons_ne (digitChar_ne_Z h11),
        replaceAll_cons_ne (digitChar_ne_Z h12), replaceAll_cons_ne (digitChar_ne_Z h13),
        replaceAll_cons_ne (digitChar_ne_Z h14),
        replaceAll_cons_ne (show ('-' : Char) ≠ 'Z' by decide),
        replaceAll_cons_ne (show ('T' : Char) ≠ 'Z' by decide),
        replaceAll_cons_ne (show ((':') : Char) ≠ 'Z' by decide),
        replaceAll_cons_self, replaceAll_nil, List.cons_append, List.nil_append]
    have hiso : fromisoformat
        [digitChar t.y1, digitChar t.y2, digitChar t.y3, digitChar t.y4, '-',
          digitChar t.mo1, digitChar t.mo2, '-', digitChar t.d1, digitChar t.d2, 'T',
          digitChar t.h1, digitChar t.h2, ':', digitChar t.mi1, digitChar t.mi2, ':',
          digitChar t.s1, digitChar t.s2, '+', '0', '0', ':', '0', '0'] =
        some ⟨t.y1 * 1000 + t.y2 * 100 + t.y3 * 10 + t.y4, t.mo1 * 10 + t.mo2,
          t.d1 * 10 + t.d2, t.h1 * 10 + t.h2, t.mi1 * 10 + t.mi2, t.s1 * 10 + t.s2⟩ := by
      simp only [fromisoformat, digitChar_isDigit h1, digitChar_isDigit h2,
        digitChar_isDigit h3, digitChar_isDigit h4, digitChar_isDigit h5,
        digitChar_isDigit h6, digitChar_isDigit h7, digitChar_isDigit h8,
        digitChar_isDigit h9, digitChar_isDigit h10, digitChar_isDigit h11,
        digitChar_isDigit h12, digitChar_isDigit h13, digitChar_isDigit h14,
        digitVal_digitChar h1, digitVal_digitChar h2, digitVal_digitChar h3,
        digitVal_digitChar h4, digitVal_digitChar h5, digitVal_digitChar h6,
        digitVal_digitChar h7, digitVal_digitChar h8, digitVal_digitChar h9,
        digitVal_digitChar h10, digitVal_digitChar h11, digitVal_digitChar h12,
        digitVal_digitChar h13, digitVal_digitChar h14]
      simp only [show ((('-') : Char) = '-') = True by simp,
        show ((('T') : Char) = 'T') = True by simp,
        show (((':') : Char) = ':') = True by simp,
        show ((('+') : Char) = '+') = True by simp,
        show ((('0') : Char) = '0') = True by simp,
        decide_True, Bool.true_and, Bool.and_true, if_true]
      rw [if_pos]
      exact ⟨by omega, by omega, by omega, by omega, hd2, by omega, by omega, by omega⟩
    show format_date_for_git t.render = String.mk (gitDateChars t)
    unfold format_date_for_git
    rw [show t.render.data = t.chars from rfl, hplus, hrep, hiso]
    show String.mk (natToDecimal (t.y1 * 1000 + t.y2 * 100 + t.y3 * 10 + t.y4)) ++ "-" ++
        String.mk (pad2 (t.mo1 * 10 + t.mo2)) ++ "-" ++ String.mk (pad2 (t.d1 * 10 + t.d2)) ++
        " " ++ String.mk (pad2 (t.h1 * 10 + t.h2)) ++ ":" ++
        String.mk (pad2 (t.mi1 * 10 + t.mi2)) ++ ":" ++ String.mk (pad2 (t.s1 * 10 + t.s2)) ++
        " +0000" = String.mk (gitDateChars t)
    rw [natToDecimal_four hy h1 h2 h3 h4, pad2_two h5 h6, pad2_two h7 h8, pad2_two h9 h10,
      pad2_two h11 h12, pad2_two h13 h14]
    rw [show ("-" : String) = String.mk ['-'] from rfl,
      show (" " : String) = String.mk [' '] from rfl,
      show ((":") : String) = String.mk [':'] from rfl,
      show (" +0000" : String) = String.mk [' ', '+', '0', '0', '0', '0'] from rfl]
    rw [mk_append, mk_append, mk_append, mk_append, mk_append, mk_append, mk_append,
      mk_append, mk_append, mk_append]
    rw [gitDateChars]
    simp [List.cons_append, List.nil_append]

theorem contains_eq_true_iff {l : List String} {a : String} :
    l.contains a = true ↔ a ∈ l := by
  simp [List.contains, List.elem_iff]

theorem processItems_count {α : Type} (g n : α → String) (items : List α)
    (ex : List String) :
    (processItems g n items ex).2.1 + (processItems g n items ex).2.2 = items.length := by
  induction items generalizing ex with
  | nil => rfl
  | cons item rest ih =>
    simp only [processItems]
    by_cases hc : ex.contains (n item) = true
    · simp only [hc, if_true, List.length_cons]
      have := ih ex
      omega
    · simp only [Bool.not_eq_true] at hc
      simp only [hc, Bool.false_eq_true, if_false, List.length_cons]
      have := ih (n item :: ex)
      omega

theorem processItems_writes {α : Type} (g n : α → String) (items : List α)
    (ex : List String) :
    ∀ e ∈ (processItems g n items ex).1,
      ∃ item, item ∈ items ∧ e = FsEvent.writeFile (n item) (g item) := by
  induction items generalizing ex with
  | nil => intro e he; simp [processItems] at he
  | cons item rest ih =>
    intro e he
    simp only [processItems] at he
    by_cases hc : ex.contains (n item) = true
    · simp only [hc, if_true] at he
      obtain ⟨it, hit, rfl⟩ := ih ex e he
      exact ⟨it, List.mem_cons_of_mem _ hit, rfl⟩
    · simp only [Bool.not_eq_true] at hc
      simp only [hc, Bool.false_eq_true, if_false, List.mem_cons] at he
      rcases he with rfl | he
      · exact ⟨item, List.mem_cons_self _ _, rfl⟩
      · obtain ⟨it, hit, rfl⟩ := ih (n item :: ex) e he
        exact ⟨it, List.mem_cons_of_mem _ hit, rfl⟩

/-- C10: for every successful run of `import_items_from_csv` the returned
statistics dictionary satisfies `valid = imported + skipped` and
`total = valid + discarded`. -/
theorem import_stats_invariants {α : Type} (csvExists : Bool) (rows : List α) (ex : List String)
    (v : α → Bool) (g n : α → String) (s : ImportStats)
    (h : (import_items_from_csv csvExists rows ex v g n).2 = .ok s) :
    s.valid = s.imported + s.skipped ∧ s.total = s.valid + s.discarded := by
  cases csvExists with
  | false => simp [import_items_from_csv] at h
  | true =>
    by_cases he : (rows.filter fun i => v i).isEmpty = true
    · simp only [import_items_from_csv, Bool.true_eq_false, if_false, he, if_true] at h
      obtain rfl : (⟨0, 0, 0, 0, 0⟩ : ImportStats) = s := by
        simpa using h
      exact ⟨rfl, rfl⟩
    · simp only [Bool.not_eq_true] at he
      simp only [import_items_from_csv, Bool.true_eq_false, if_false, he,
        Bool.false_eq_true] at h
      obtain rfl : (⟨rows.length, (rows.filter fun i => v i).length,
          rows.length - (rows.filter fun i => v i).length,
          (processItems g n (rows.filter fun i => v i) ex).2.1,
          (processItems g n (rows.filter fun i => v i) ex).2.2⟩ : ImportStats) = s := by
        simpa using h
      constructor
      · exact (processItems_count g n (rows.filter fun i => v i) ex).symm
      · have := List.length_filter_le (fun i => v i) rows
        simp only
        omega

/-- C8: when the CSV file does not exist, `import_items_from_csv` raises
the file-not-found error and performs zero filesystem mutation: the event
list is empty, so no directory is created, nothing is written and nothing
is deleted. -/
theorem import_missing_csv_error {α : Type} (rows : List α) (ex : List String) (v : α → Bool)
    (g n : α → String) :
    import_items_from_csv false rows ex v g n = ([], .error .fileNotFound) := rfl

/-- C3 (amended): the source CSV is deleted exactly when the file exists
and at least one row passes the required-field check.  When every row is
discarded (or there are no data rows) the early return of
`import_items_from_csv` skips the `csv_path.unlink()`, so the deletion is
not unconditional as claimed. -/
theorem import_deletes_csv_iff {α : Type} (csvExists : Bool) (rows : List α) (ex : List String)
    (v : α → Bool) (g n : α → String) :
    FsEvent.deleteCsv ∈ (import_items_from_csv csvExists rows ex v g n).1 ↔
      (csvExists = true ∧ (rows.filter fun i => v i) ≠ []) := by
  cases csvExists with
  | false => simp [import_items_from_csv]
  | true =>
    by_cases he : (rows.filter fun i => v i).isEmpty = true
    · rw [List.isEmpty_iff] at he
      simp [import_items_from_csv, he]
    · simp only [Bool.not_eq_true] at he
      have hne : (rows.filter fun i => v i) ≠ [] := by
        intro hx
        rw [hx] at he
        simp at he
      simp only [import_items_from_csv, Bool.true_eq_false, if_false, he,
        Bool.false_eq_true]
      simp [hne, List.mem_append]

/-- C4 (amended): a row failing the required-field check never produces a
markdown file (every write event comes from a row passing the check), and
whenever at least one row is valid the returned statistics satisfy
`total = rows`, `valid = `passing rows and `discarded = total - valid`;
but when zero rows are valid the function returns all-zero statistics, so
`discarded` does not equal the number of rows read minus the valid count
in that case. -/
theorem import_accounting {α : Type} (csvExists : Bool) (rows : List α) (ex : List String)
    (v : α → Bool) (g n : α → String) (s : ImportStats)
    (hres : (import_items_from_csv csvExists rows ex v g n).2 = .ok s) :
    (∀ name content,
        FsEvent.writeFile name content ∈ (import_items_from_csv csvExists rows ex v g n).1 →
        ∃ item, item ∈ rows ∧ v item = true ∧ name = n item ∧ content = g item)
    ∧ ((rows.filter fun i => v i) ≠ [] →
        s.total = rows.length ∧ s.valid = (rows.filter fun i => v i).length ∧
          s.discarded = rows.length - (rows.filter fun i => v i).length)
    ∧ ((rows.filter fun i => v i) = [] → s = ⟨0, 0, 0, 0, 0⟩) := by
  cases csvExists with
  | false => simp [import_items_from_csv] at hres
  | true =>
    by_cases he : (rows.filter fun i => v i).isEmpty = true
    · rw [List.isEmpty_iff] at he
      simp only [import_items_from_csv, Bool.true_eq_false, if_false, he] at hres ⊢
      simp only [List.isEmpty_nil, if_true] at hres
      refine ⟨?_, ?_, ?_⟩
      · intro name content hmem
        simp at hmem
      · intro hne; exact absurd rfl hne
      · intro _
        simpa using hres.symm
    · simp only [Bool.not_eq_true] at he
      have hne : (rows.filter fun i => v i) ≠ [] := by
        intro hx
        rw [hx] at he
        simp at he
      simp only [import_items_from_csv, Bool.true_eq_false, if_false, he,
        Bool.false_eq_true] at hres ⊢
      obtain rfl : (⟨rows.length, (rows.filter fun i => v i).length,
          rows.length - (rows.filter fun i => v i).length,
          (processItems g n (rows.filter fun i => v i) ex).2.1,
          (processItems g n (rows.filter fun i => v i) ex).2.2⟩ : ImportStats) = s := by
        simpa using hres
      refine ⟨?_, ?_, ?_⟩
      · intro name content hmem
        rcases List.mem_cons.mp hmem with h | h
        · exact absurd h (by simp)
        · rcases List.mem_append.mp h with h2 | h2
          · obtain ⟨it, hit, heq⟩ :=
              processItems_writes g n (rows.filter fun i => v i) ex _ h2
            rw [List.mem_filter] at hit
            obtain ⟨hn1, hn2⟩ := FsEvent.writeFile.inj heq
            exact ⟨it, hit.1, hit.2, hn1, hn2⟩
          · exact absurd (List.mem_singleton.mp h2) (by simp)
      · intro _
        exact ⟨rfl, rfl, rfl⟩
      · intro hx; exact absurd hx hne

/-- C2 (counterexample): for a pull request that is not merged and has no
head branch, `transform_pull_request` puts the synthetic placeholder only
in `short_sha`; the full `sha` field stays empty rather than receiving
`"pr-5"` as the claim states. -/
theorem transform_pr_placeholder_counterexample :
    (transform_pull_request prHeadless).short_sha = "pr-5" ∧
      (transform_pull_request prHeadless).sha ≠ "pr-5" := by
  decide

/-- C2 (amended): `transform_pull_request` resolves `sha` to the
merge-commit SHA when merged, else to the head SHA when a head exists,
else to the empty string; the placeholder `"pr-<number>"` is used for
`short_sha` exactly when the resolved SHA is empty, while the `sha` field
keeps the empty resolution, and a non-empty SHA is truncated to its first
seven characters for `short_sha`. -/
theorem transform_pr_sha_resolution (pr : RawPR) :
    (pr.merged = true → (transform_pull_request pr).sha = pr.merge_commit_sha)
    ∧ (pr.merged = false → ∀ h, pr.head = some h →
        (transform_pull_request pr).sha = h.sha)
    ∧ (pr.merged = false → pr.head = none →
        (transform_pull_request pr).sha = "" ∧
          (transform_pull_request pr).short_sha = "pr-" ++ toString pr.number)
    ∧ ((transform_pull_request pr).sha = "" →
        (transform_pull_request pr).short_sha = "pr-" ++ toString pr.number)
    ∧ ((transform_pull_request pr).sha ≠ "" →
        (transform_pull_request pr).short_sha = pyTake (transform_pull_request pr).sha 7) := by
  refine ⟨?_, ?_, ?_, ?_, ?_⟩
  · intro hm
    simp [transform_pull_request, hm]
  · intro hm h hh
    simp [transform_pull_request, hm, hh]
  · intro hm hh
    simp [transform_pull_request, hm, hh]
  · intro hsha
    simp only [transform_pull_request] at hsha ⊢
    rw [hsha]
    simp
  · intro hsha
    simp only [transform_pull_request] at hsha ⊢
    rw [if_pos hsha]

/-- Witness for C2's amended theorem: on the spec's merged example the
merge commit wins over the head SHA, and on the headless example the
placeholder fills only `short_sha`. -/
theorem transform_pr_sha_resolution_witness :
    (transform_pull_request prMerged).sha = "deadbee" ∧
      ((transform_pull_request prHeadless).sha = "" ∧
        (transform_pull_request prHeadless).short_sha = "pr-" ++ toString prHeadless.number) :=
  ⟨(transform_pr_sha_resolution prMerged).1 rfl, (transform_pr_sha_resolution prHeadless).2.2.1 rfl rfl⟩

theorem review_keep_iff (r : RawReview) (username : String) :
    ((match r.user with
      | some u => u == username
      | none => false) && !(r.state == "DISMISSED")) = true ↔
      (r.user = some username ∧ r.state ≠ "DISMISSED") := by
  cases hu : r.user <;> simp [hu]

theorem review_date_keep_iff (r : RawReview) (s : Nat) :
    ((match r.submitted_at with
      | some t0 => decide (s ≤ t0)
      | none => false) = true) ↔ (∃ t0, r.submitted_at = some t0 ∧ s ≤ t0) := by
  cases ht : r.submitted_at <;> simp [ht]

/-- C9: a review record appears in the transformed output of the
code-review search for one PR exactly when it is the transform of a fetched
review that is authored by the target username, is not in `DISMISSED`
state, and, when a since-instant is given, was submitted at or after it. -/
theorem review_filter_spec (reviews : List RawReview) (username : String) (since : Option Nat)
    (pr : RawPR) (rec : ReviewRecord) :
    rec ∈ pr_review_records reviews username since pr ↔
      ∃ review, review ∈ reviews ∧ review.user = some username ∧
        review.state ≠ "DISMISSED" ∧
        (∀ s, since = some s → ∃ t0, review.submitted_at = some t0 ∧ s ≤ t0) ∧
        rec = transform_code_review review pr := by
  cases since with
  | none =>
    simp only [pr_review_records, filter_user_reviews, List.mem_map, List.mem_filter]
    constructor
    · rintro ⟨review, ⟨hmem, hkeep⟩, rfl⟩
      rw [review_keep_iff] at hkeep
      exact ⟨review, hmem, hkeep.1, hkeep.2, by simp, rfl⟩
    · rintro ⟨review, hmem, hu, hst, _, rfl⟩
      exact ⟨review, ⟨hmem, (review_keep_iff review username).mpr ⟨hu, hst⟩⟩, rfl⟩
  | some s =>
    simp only [pr_review_records, filter_user_reviews, List.mem_map, List.mem_filter]
    constructor
    · rintro ⟨review, ⟨⟨hmem, hkeep⟩, hdate⟩, rfl⟩
      rw [review_keep_iff] at hkeep
      rw [review_date_keep_iff] at hdate
      refine ⟨review, hmem, hkeep.1, hkeep.2, ?_, rfl⟩
      intro s2 hs2
      cases Option.some.inj hs2
      exact hdate
    · rintro ⟨review, hmem, hu, hst, hdate, rfl⟩
      refine ⟨review, ⟨⟨hmem, (review_keep_iff review username).mpr ⟨hu, hst⟩⟩, ?_⟩, rfl⟩
      rw [review_date_keep_iff]
      exact hdate s rfl

/-- C5 (counterexample): the types argument `"commits,bogus"` contains the
malformed token `bogus` next to the valid token `commits`, yet
`parse_types_arg` accepts it and enables the commits fetch instead of
exiting with an error as the claim states. -/
theorem parse_types_mixed_tokens_accepted : parse_types_arg "commits,bogus" = some ⟨true, false, false⟩ := by
  decide

theorem mem_typesTokens_all (a : String) (h : pyLower a = "all") :
    "all" ∈ typesTokens a := by
  rw [typesTokens, h]
  decide

/-- C5 (amended): `parse_types_arg` rejects a types argument with an error
exit exactly when the whole argument is not `both` and none of its
comma-separated tokens is recognised; unrecognised tokens mixed with
recognised ones are silently ignored. -/
theorem parse_types_error_iff (a : String) :
    parse_types_arg a = none ↔
      (pyLower a ≠ "both" ∧ ∀ tk ∈ typesTokens a, tk ∉ recognizedTypeTokens) := by
  constructor
  · intro h
    simp only [parse_types_arg] at h
    split at h
    · exact absurd h (by simp)
    · split at h
      · exact absurd h (by simp)
      · split at h
        · rename_i hA hB hC
          constructor
          · intro hb
            exact hB (by rw [hb]; decide)
          · intro tk htk hrec
            simp only [Bool.or_eq_true, not_or, Bool.not_eq_true] at hA
            simp only [Bool.and_eq_true, Bool.not_eq_true', Bool.or_eq_false_iff] at hC
            simp only [recognizedTypeTokens, List.mem_cons, List.not_mem_nil,
              or_false] at hrec
            have hmem := contains_eq_true_iff.mpr htk
            rcases hrec with rfl | rfl | rfl | rfl | rfl | rfl | rfl | rfl | rfl
            · rw [hA.2] at hmem; exact Bool.false_ne_true hmem
            · rw [hC.1.1.1] at hmem; exact Bool.false_ne_true hmem
            · rw [hC.1.1.2] at hmem; exact Bool.false_ne_true hmem
            · rw [hC.1.2.1.1] at hmem; exact Bool.false_ne_true hmem
            · rw [hC.1.2.1.2] at hmem; exact Bool.false_ne_true hmem
            · rw [hC.1.2.2] at hmem; exact Bool.false_ne_true hmem
            · rw [hC.2.1.1] at hmem; exact Bool.false_ne_true hmem
            · rw [hC.2.1.2] at hmem; exact Bool.false_ne_true hmem
            · rw [hC.2.2] at hmem; exact Bool.false_ne_true hmem
        · exact absurd h (by simp)
  · rintro ⟨hb, htk⟩
    have hcontains : ∀ tk ∈ recognizedTypeTokens, (typesTokens a).contains tk = false := by
      intro tk hrec
      rw [← Bool.not_eq_true, contains_eq_true_iff]
      intro hmem
      exact htk tk hmem hrec
    have hA : (pyLower a == "all") = false := by
      rw [beq_eq_false_iff_ne]
      intro heq
      exact htk "all" (mem_typesTokens_all a heq) (by decide)
    have hB : (pyLower a == "both") = false := by
      rw [beq_eq_false_iff_ne]
      exact hb
    have hnm : ∀ tk ∈ recognizedTypeTokens, tk ∉ typesTokens a :=
      fun tk hrec hmem => htk tk hmem hrec
    simp [parse_types_arg, hA, hB, hnm "all" (by decide),
      hnm "commits" (by decide), hnm "commit" (by decide),
      hnm "prs" (by decide), hnm "pr" (by decide),
      hnm "pullrequests" (by decide), hnm "reviews" (by decide),
      hnm "review" (by decide), hnm "codereviews" (by decide)]


/-- C1: the CSV round trip is evaluated at a record whose `title` field is
`a,b` (no newlines) with the fixed header list `["title"]`.
`array_to_csv` passes the field through `escape_csv_field` and then through
`csv.writer`, which quotes it a second time, so `parse_csv_file` recovers
the escaped form `"a,b"` (with literal quotes) instead of the original
value: the value containing a comma is not recovered verbatim. -/
theorem csv_double_escape_roundtrip :
    parse_csv_file (array_to_csv [[("title", "a,b")]] ["title"]) =
      [[("title", "\"a,b\"")]] ∧ ("\"a,b\"" : String) ≠ "a,b" := by
  decide

/-- C3 (counterexample): an existing CSV whose single row fails the
required-field check is processed without ever deleting the CSV file — the
delete event does not occur, contradicting the claimed unconditional
deletion. -/
theorem import_no_valid_rows_keeps_csv :
    FsEvent.deleteCsv ∉
      (import_items_from_csv true [badCommitRow] [] is_valid_commit
        generate_commit_markdown commit_file_name).1 := by
  decide

/-- C4 (counterexample): with one data row that fails the required-field
check, the returned statistics are all zero, so `discarded = 0` while the
number of rows read minus the number of valid rows is `1`. -/
theorem import_zero_valid_stats_counterexample :
    (import_items_from_csv true [badCommitRow] [] is_valid_commit
        generate_commit_markdown commit_file_name).2 = .ok ⟨0, 0, 0, 0, 0⟩ ∧
      ([badCommitRow].length -
        (([badCommitRow] : List Record).filter fun i => is_valid_commit i).length) = 1 := by
  decide

/-- Witness for C4's amended theorem: a run over one valid and one invalid
row returns statistics with `total = 2`, `valid = 1` and `discarded = 1`. -/
theorem import_accounting_witness :
    (⟨2, 1, 1, 1, 0⟩ : ImportStats).total =
        ([goodCommitRow, badCommitRow] : List Record).length ∧
      (⟨2, 1, 1, 1, 0⟩ : ImportStats).valid =
        (([goodCommitRow, badCommitRow] : List Record).filter
          fun i => is_valid_commit i).length ∧
      (⟨2, 1, 1, 1, 0⟩ : ImportStats).discarded =
        ([goodCommitRow, badCommitRow] : List Record).length -
          (([goodCommitRow, badCommitRow] : List Record).filter
            fun i => is_valid_commit i).length :=
  (import_accounting true [goodCommitRow, badCommitRow] [] is_valid_commit
    generate_commit_markdown commit_file_name ⟨2, 1, 1, 1, 0⟩ (by decide)).2.1 (by decide)

/-- Witness for C10: the same concrete run satisfies both accounting
invariants. -/
theorem import_stats_invariants_witness :
    (⟨2, 1, 1, 1, 0⟩ : ImportStats).valid =
        (⟨2, 1, 1, 1, 0⟩ : ImportStats).imported + (⟨2, 1, 1, 1, 0⟩ : ImportStats).skipped ∧
      (⟨2, 1, 1, 1, 0⟩ : ImportStats).total =
        (⟨2, 1, 1, 1, 0⟩ : ImportStats).valid + (⟨2, 1, 1, 1, 0⟩ : ImportStats).discarded :=
  import_stats_invariants true [goodCommitRow, badCommitRow] [] is_valid_commit
    generate_commit_markdown commit_file_name ⟨2, 1, 1, 1, 0⟩ (by decide)

/-- Witness for C6: the filename of `2024-03-01T12:00:00Z` sorts before the
filename of `2024-03-01T12:00:01Z` regardless of the identifiers. -/
theorem filenames_sorted_by_timestamp_witness :
    commit_file_name [("author_date", tsExample.render), ("short_sha", "abc1234")] <
      commit_file_name [("author_date", tsExampleLater.render), ("short_sha", "0000000")] :=
  filenames_sorted_by_timestamp tsExample tsExampleLater _ _ (by decide) (by decide)
    (by decide) (by decide)
    (by rw [String.lt_iff_toList_lt]
        show List.Lex (· < ·) tsExample.render.toList tsExampleLater.render.toList
        decide)

/-- Witness for C7: the spec's worked example, with both results stated as
string literals. -/
theorem filename_roundtrip_and_git_date_witness :
    parse_date_from_filename
        (commit_file_name [("author_date", "2024-03-01T12:00:00Z"), ("short_sha", "abc1234")]) =
      some "2024-03-01T12:00:00Z" ∧
      format_date_for_git "2024-03-01T12:00:00Z" = "2024-03-01 12:00:00 +0000" := by
  have h := filename_roundtrip_and_git_date tsExample "abc1234" (by decide) (by decide)
  have e1 : tsExample.render = "2024-03-01T12:00:00Z" := by decide
  have e2 : String.mk (gitDateChars tsExample) = "2024-03-01 12:00:00 +0000" := by decide
  rw [e1, e2] at h
  exact h

end Unicon
